import Mathlib

/-!
Verification of the batch file-move and batch file-delete handlers of this
repository (the serverless functions under supabase/functions/move-files,
supabase/functions/delete-items, and the client-side destination validator in
MoveItemsDialog.tsx).  The handlers are embedded shallowly: every outbound
network call is recorded in an explicit trace, and the responses of the
provider are supplied by an oracle ("world") structure, so that ordering and
absence-of-mutation properties can be stated about the traces.

String operations of the source (JavaScript string methods) are modelled on
the character list underlying a Lean String, so that all definitions reduce
in the kernel.
-/

namespace RepoOps

/-- Model of the JS string method startsWith: the second string is a leading
segment of the first. -/
def jsStartsWith (s pre : String) : Bool := pre.data.isPrefixOf s.data

/-- Model of the JS string method endsWith. -/
def jsEndsWith (s suf : String) : Bool := suf.data.isSuffixOf s.data

/-- Model of JS string concatenation, kept as an explicit operation on the
character lists. -/
def strConcat (a b : String) : String := String.mk (a.data ++ b.data)

/-- Model of the JS expression s.slice(n) for a non-negative n: drop the
first n characters. -/
def jsDropChars (s : String) (n : Nat) : String := String.mk (s.data.drop n)

/-- Model of the JS test p.includes with a needle of two dots: the character
list contains two consecutive dots. -/
def hasDD : List Char → Bool
  | [] => false
  | [_] => false
  | a :: b :: rest => (a == '.' && b == '.') || hasDD (b :: rest)

/-- Splitting a character list on the slash character, accumulator form. -/
def segsAux : List Char → List Char → List (List Char)
  | [], acc => [acc.reverse]
  | c :: cs, acc => if c = '/' then acc.reverse :: segsAux cs [] else segsAux cs (c :: acc)

/-- The slash-separated segments of a path, as character lists; used to state
the claim-side notion of a ".." path segment. -/
def segs (l : List Char) : List (List Char) := segsAux l []

/-! ## Data model shared by both handlers -/

/-- The type tag of a selected item, z.enum of file and dir in both schemas. -/
inductive ItemType where
  | file
  | dir
deriving DecidableEq, Repr

/-- A GitHub profile row as used by the handlers: the provider username and
the stored provider access token. -/
structure Profile where
  github_username : String
  github_access_token : String
deriving DecidableEq, Repr

/-! ## delete-items: schema validation (deleteItemsSchema) -/

/-- Character class of the owner regex in deleteItemsSchema:
ASCII letters, digits and the hyphen. -/
def isOwnerChar (c : Char) : Bool := c.isAlpha || c.isDigit || c == '-'

/-- Character class of the repo regex in deleteItemsSchema:
ASCII letters, digits, dot, underscore and the hyphen. -/
def isRepoChar (c : Char) : Bool := c.isAlpha || c.isDigit || c == '.' || c == '_' || c == '-'

/-- The path refinement of deleteItemsSchema: length between 1 and 4096, the
string does not include two consecutive dots, and does not start with a
slash. -/
def pathOk (p : String) : Bool :=
  decide (1 ≤ p.length) && decide (p.length ≤ 4096) &&
  !(hasDD p.data) && !(jsStartsWith p "/")

/-- A selected item of the delete batch: a path and a file/dir tag. -/
structure DeleteItem where
  path : String
  type : ItemType
deriving DecidableEq, Repr

/-- The parsed body of a delete-items request. -/
structure DeleteRequest where
  owner : String
  repo : String
  branch : Option String
  items : List DeleteItem
deriving DecidableEq, Repr

/-- deleteItemsSchema.safeParse succeeding: owner and repo match their regex
and length bounds, the optional branch respects its length bounds, the item
list is non-empty and every item path passes the path refinement. -/
def validateDeleteRequest (r : DeleteRequest) : Bool :=
  decide (1 ≤ r.owner.length) && decide (r.owner.length ≤ 39) &&
  r.owner.data.all isOwnerChar &&
  decide (1 ≤ r.repo.length) && decide (r.repo.length ≤ 100) &&
  r.repo.data.all isRepoChar &&
  (match r.branch with
   | none => true
   | some b => decide (1 ≤ b.length) && decide (b.length ≤ 255)) &&
  r.items.all (fun i => pathOk i.path) &&
  !r.items.isEmpty

/-! ## delete-items: tree filtering (newTree) -/

/-- An entry of the recursive tree listing returned by the provider:
path, mode, entry type ("blob" or "tree") and object identifier. -/
structure TreeEntry where
  path : String
  mode : String
  type : String
  sha : String
deriving DecidableEq, Repr

/-- The dirPaths normalisation of the handler: a selected directory path
keeps its trailing slash if it has one, otherwise a slash is appended. -/
def normDirPath (p : String) : String :=
  if jsEndsWith p "/" then p else strConcat p "/"

/-- The dirPaths list of the handler: normalised paths of the selected
directory items. -/
def dirExclusions (items : List DeleteItem) : List String :=
  (items.filter (fun i => decide (i.type = ItemType.dir))).map (fun d => normDirPath d.path)

/-- The filePaths set of the handler: paths of the selected file items. -/
def selFilePaths (items : List DeleteItem) : List String :=
  (items.filter (fun i => decide (i.type = ItemType.file))).map (fun f => f.path)

/-- The newTree computation of the delete handler: drop entries lying under a
selected directory or equal to a selected file path, then keep only entries
of blob type.  The final map of the source keeps path, mode, type and sha
unchanged, so it is the identity on this record. -/
def buildNewTree (items : List DeleteItem) (tree : List TreeEntry) : List TreeEntry :=
  (tree.filter (fun e =>
      !((dirExclusions items).any (fun dp => jsStartsWith e.path dp)) &&
      !(decide (e.path ∈ selFilePaths items)))).filter
    (fun e => decide (e.type = "blob"))

/-! ## delete-items: the handler pipeline -/

/-- A provider call issued by the delete handler.  createTree carries the
tree list submitted as the new tree object; createCommit carries the tree
identifier and the parent commit; updateRef carries the new commit. -/
inductive GitCall where
  | getRef
  | getCommit
  | getTree
  | createTree (tree : List TreeEntry)
  | createCommit (treeSha : String) (parent : String)
  | updateRef (sha : String)
deriving DecidableEq, Repr

/-- Only the PATCH of the branch reference moves the branch pointer; the
GETs read objects and the POSTs create unreferenced tree/commit objects. -/
def mutatesBranchRef : GitCall → Bool
  | GitCall.updateRef _ => true
  | _ => false

/-- The HTTP response of the delete handler, by kind. -/
inductive DeleteResult where
  | invalidInput
  | unauthenticated
  | forbidden
  | stepFailed (msg : String)
  | success (deleted : Nat)
deriving DecidableEq, Repr

/-- A delete result that is not the success response. -/
def DeleteResult.isErr : DeleteResult → Bool
  | DeleteResult.success _ => false
  | _ => true

/-- Oracle for one run of the delete handler: the profile returned by
getGitHubToken, and for each of the six provider calls whether it succeeds
together with the data a successful response carries. -/
structure DeleteWorld where
  profile : Option Profile
  refOk : Bool
  currentCommitSha : String
  commitOk : Bool
  baseTreeSha : String
  treeOk : Bool
  tree : List TreeEntry
  createTreeOk : Bool
  newTreeSha : String
  createCommitOk : Bool
  newCommitSha : String
  updateRefOk : Bool

/-- The delete-items handler: schema validation, authentication, the owner
check, then the six sequential provider calls, stopping at the first failed
call.  The second component is the trace of provider calls issued. -/
def deleteItemsHandler (w : DeleteWorld) (r : DeleteRequest) :
    DeleteResult × List GitCall :=
  if validateDeleteRequest r = true then
    match w.profile with
    | none => (DeleteResult.unauthenticated, [])
    | some prof =>
      if r.owner = prof.github_username then
        if w.refOk = true then
          if w.commitOk = true then
            if w.treeOk = true then
              if w.createTreeOk = true then
                if w.createCommitOk = true then
                  if w.updateRefOk = true then
                    (DeleteResult.success r.items.length,
                     [GitCall.getRef, GitCall.getCommit, GitCall.getTree,
                      GitCall.createTree (buildNewTree r.items w.tree),
                      GitCall.createCommit w.newTreeSha w.currentCommitSha,
                      GitCall.updateRef w.newCommitSha])
                  else
                    (DeleteResult.stepFailed "Failed to update branch",
                     [GitCall.getRef, GitCall.getCommit, GitCall.getTree,
                      GitCall.createTree (buildNewTree r.items w.tree),
                      GitCall.createCommit w.newTreeSha w.currentCommitSha,
                      GitCall.updateRef w.newCommitSha])
                else
                  (DeleteResult.stepFailed "Failed to create commit",
                   [GitCall.getRef, GitCall.getCommit, GitCall.getTree,
                    GitCall.createTree (buildNewTree r.items w.tree),
                    GitCall.createCommit w.newTreeSha w.currentCommitSha])
              else
                (DeleteResult.stepFailed "Failed to create new tree",
                 [GitCall.getRef, GitCall.getCommit, GitCall.getTree,
                  GitCall.createTree (buildNewTree r.items w.tree)])
            else
              (DeleteResult.stepFailed "Failed to get tree",
               [GitCall.getRef, GitCall.getCommit, GitCall.getTree])
          else
            (DeleteResult.stepFailed "Failed to get commit",
             [GitCall.getRef, GitCall.getCommit])
        else
          (DeleteResult.stepFailed "Failed to get branch reference",
           [GitCall.getRef])
      else (DeleteResult.forbidden, [])
  else (DeleteResult.invalidInput, [])

/-- All the conditions under which the delete handler reaches step 6
(the branch-reference PATCH): valid input, an authenticated matching owner,
and success of the five preceding provider calls. -/
def deletePipelineOk (w : DeleteWorld) (r : DeleteRequest) : Bool :=
  validateDeleteRequest r &&
  (match w.profile with
   | none => false
   | some prof => decide (r.owner = prof.github_username)) &&
  w.refOk && w.commitOk && w.treeOk && w.createTreeOk && w.createCommitOk

/-! ## move-files: path helpers of the per-item loop -/

/-- Model of the JS expression p.split with slash followed by pop: the last
slash-separated segment of the path (the whole path when it has no slash). -/
def lastSegment (p : String) : String :=
  String.mk ((p.data.reverse.takeWhile (fun c => !(c == '/'))).reverse)

/-- Model of the JS expression p.slice of zero up to the last slash index,
guarded by p.includes of a slash: the part of the path before its last
slash, and the empty string when the path has no slash.  This is the
sourceDir / parentDir computation of the move handler. -/
def sourceDirOf (p : String) : String :=
  if p.data.contains '/' then
    String.mk (((p.data.reverse.dropWhile (fun c => !(c == '/'))).drop 1).reverse)
  else ""

/-- Model of df.path.slice of the directory path length followed by
removing one leading slash: the path of a listed blob relative to the moved
directory. -/
def relativeOf (dirPath p : String) : String :=
  let r := jsDropChars p dirPath.length
  if jsStartsWith r "/" then jsDropChars r 1 else r

/-! ## move-files: schema, request, world -/

/-- A selected item of the move batch as sent by the client: path, blob
identifier, and file/dir tag. -/
structure MvFile where
  path : String
  sha : String
  type : ItemType
deriving DecidableEq, Repr

/-- The parsed body of a move-files request.  The branch default of the
schema is applied, so branch is always present. -/
structure MoveRequest where
  owner : String
  repo : String
  files : List MvFile
  destination : String
  branch : String
deriving DecidableEq, Repr

/-- moveFilesSchema.parse succeeding: owner and repo non-empty.  The schema
puts no constraint on file paths, shas, destination or branch. -/
def validateMoveRequest (r : MoveRequest) : Bool :=
  decide (1 ≤ r.owner.length) && decide (1 ≤ r.repo.length)

/-- The body of a successful GET of a file through the contents endpoint:
its base64 content and blob identifier. -/
structure FileData where
  content : String
  sha : String
deriving DecidableEq, Repr

/-- The remote directory structure as seen through the contents endpoint:
a file entry with its path and identifier, or a directory entry with its
path and children. -/
inductive Entry where
  | fileE (path : String) (sha : String)
  | dirE (path : String) (children : List Entry)

/-- A path/identifier pair produced by the recursive lister. -/
structure Blob where
  path : String
  sha : String
deriving DecidableEq, Repr

/-- A provider call issued by the move handler: a GET of the contents
endpoint, a PUT carrying the uploaded content and the optional identifier of
an existing destination, or a DELETE carrying the precondition identifier. -/
inductive MvCall where
  | getContents (path : String)
  | putFile (path : String) (content : String) (priorSha : Option String)
  | deleteFile (path : String) (sha : String)
deriving DecidableEq, Repr

/-- Oracle for the provider content API used by the move handler. -/
structure GhWorld where
  getFile : String → Option FileData
  putOk : String → Bool
  deleteOk : String → Bool
  subtree : String → Entry
  listFails : String → Bool

/-- Oracle for one run of the move handler: whether the caller is
authenticated, the profile row, and the content-API oracle. -/
structure MoveWorld where
  userOk : Bool
  profile : Option Profile
  gh : GhWorld

/-! ## move-files: listFilesRecursively -/

mutual

/-- The listFilesRecursively helper of the move handler.  Listing a
directory issues one GET of its path; if that GET fails the result for the
subtree is the empty list.  A file child contributes its path and
identifier with no further call; a directory child is recursed into. -/
def listEntry (fails : String → Bool) : Entry → List Blob × List MvCall
  | Entry.fileE p sha => ([⟨p, sha⟩], [])
  | Entry.dirE p cs =>
    if fails p = true then ([], [MvCall.getContents p])
    else
      let r := listEntries fails cs
      (r.1, MvCall.getContents p :: r.2)

/-- Sequential traversal of the children of a listed directory. -/
def listEntries (fails : String → Bool) : List Entry → List Blob × List MvCall
  | [] => ([], [])
  | e :: es =>
    let a := listEntry fails e
    let b := listEntries fails es
    (a.1 ++ b.1, a.2 ++ b.2)

end

mutual

/-- Modelled from the spec contract of the Recursive Directory Lister:
every blob (not subdirectory) reachable under the entry, in traversal
order, with no failure behaviour. -/
def specBlobs : Entry → List Blob
  | Entry.fileE p sha => [⟨p, sha⟩]
  | Entry.dirE _ cs => specBlobsList cs

/-- Pointwise extension of specBlobs to a list of children. -/
def specBlobsList : List Entry → List Blob
  | [] => []
  | e :: es => specBlobs e ++ specBlobsList es

end

/-! ## move-files: moveSingleFile -/

/-- The per-file status returned by moveSingleFile. -/
inductive MStatus where
  | moved
  | skipped
deriving DecidableEq, Repr

/-- The status string recorded in the details list for a per-file result. -/
def mStatusStr : MStatus → String
  | MStatus.moved => "moved"
  | MStatus.skipped => "skipped"

/-- The moveSingleFile helper: skip when source equals destination with no
call; fetch the source content (fatal on failure); probe the destination to
pick up an existing identifier (non-fatal); PUT the destination (fatal on
failure, and the DELETE is not issued); only then DELETE the source with its
identifier as precondition (fatal on failure, after the request was
issued). -/
def moveSingleFile (g : GhWorld) (srcPath srcSha destPath : String) :
    Except String MStatus × List MvCall :=
  if srcPath = destPath then (Except.ok MStatus.skipped, [])
  else
    match g.getFile srcPath with
    | none =>
      (Except.error (strConcat "Failed to fetch source content for " srcPath),
       [MvCall.getContents srcPath])
    | some srcData =>
      let priorSha : Option String :=
        match g.getFile destPath with
        | some destData => some destData.sha
        | none => none
      let callsPre : List MvCall :=
        [MvCall.getContents srcPath, MvCall.getContents destPath,
         MvCall.putFile destPath srcData.content priorSha]
      if g.putOk destPath = true then
        ((if g.deleteOk srcPath = true then Except.ok MStatus.moved
          else Except.error (strConcat "Failed to delete " srcPath)),
         callsPre ++ [MvCall.deleteFile srcPath srcSha])
      else
        (Except.error (strConcat "Failed to create " destPath), callsPre)

/-! ## move-files: batch loop -/

/-- A record of the details array of the move response. -/
structure Detail where
  src : String
  dest : String
  status : String
deriving DecidableEq, Repr

/-- The HTTP response of the move handler, by kind: 401, the 400 of the
cycle check, the 500 produced by the catch-all when a thrown per-file error
or a parse error propagates, or the success payload. -/
inductive MoveOutcome where
  | unauthorized (msg : String)
  | badRequest (msg : String)
  | serverError (msg : String)
  | success (moved : Nat) (skipped : Nat) (details : List Detail)
deriving DecidableEq, Repr

/-- The 400 message of the cycle check. -/
def cycleMsg (p d : String) : String :=
  strConcat (strConcat (strConcat (strConcat
    "Cannot move folder \"" p) "\" into itself or its descendant \"") d) "\""

/-- The destination recorded for a skipped item: the JS expression
destination or the literal root when destination is empty. -/
def destOrRoot (d : String) : String := if d = "" then "root" else d

/-- The inner loop over the blobs listed under a moved directory: each blob
is moved to targetDir joined with its relative path; a per-file error stops
the loop and propagates (the handler catch turns it into a 500). -/
def runDirFiles (g : GhWorld) (dirPath targetDir : String) :
    List Blob → Except String (Nat × Nat × List Detail) × List MvCall
  | [] => (Except.ok (0, 0, []), [])
  | df :: rest =>
    let newPath := strConcat (strConcat targetDir "/") (relativeOf dirPath df.path)
    match moveSingleFile g df.path df.sha newPath with
    | (Except.error e, tr) => (Except.error e, tr)
    | (Except.ok st, tr) =>
      match runDirFiles g dirPath targetDir rest with
      | (Except.error e, tr2) => (Except.error e, tr ++ tr2)
      | (Except.ok (m, s, ds), tr2) =>
        (Except.ok ((if st = MStatus.moved then m + 1 else m),
                    (if st = MStatus.moved then s else s + 1),
                    ⟨df.path, newPath, mStatusStr st⟩ :: ds),
         tr ++ tr2)

/-- The per-item loop of the move handler.  In order: the same-folder skip
for files, the same-parent skip for directories, the 400 cycle rejection for
a directory whose path equals the destination or is an ancestor of it, then
the directory move (list recursively, move each blob) or the single file
move.  A thrown per-file error aborts the loop as a 500; the accumulated
counters and details are returned on normal completion. -/
def processItems (g : GhWorld) (dest : String) :
    List MvFile → Nat × Nat × List Detail → MoveOutcome × List MvCall
  | [], (m, s, ds) => (MoveOutcome.success m s ds, [])
  | f :: rest, (m, s, ds) =>
    let fileName := lastSegment f.path
    let sourceDir := sourceDirOf f.path
    if f.type = ItemType.file ∧ dest = sourceDir then
      processItems g dest rest
        (m, s + 1, ds ++ [⟨f.path, destOrRoot dest, "skipped (same folder)"⟩])
    else if f.type = ItemType.dir ∧ dest = sourceDir then
      processItems g dest rest
        (m, s + 1, ds ++ [⟨f.path, destOrRoot dest, "skipped (same parent)"⟩])
    else if f.type = ItemType.dir ∧
        (dest = f.path ∨ (dest ≠ "" ∧ jsStartsWith dest (strConcat f.path "/") = true)) then
      (MoveOutcome.badRequest (cycleMsg f.path dest), [])
    else if f.type = ItemType.dir then
      let targetDir := if dest ≠ "" then strConcat (strConcat dest "/") fileName else fileName
      let lst := listEntry g.listFails (g.subtree f.path)
      match runDirFiles g f.path targetDir lst.1 with
      | (Except.error e, tr) => (MoveOutcome.serverError e, lst.2 ++ tr)
      | (Except.ok (dm, dsk, dds), tr) =>
        let pr := processItems g dest rest (m + dm, s + dsk, ds ++ dds)
        (pr.1, lst.2 ++ tr ++ pr.2)
    else
      let newPath := if dest ≠ "" then strConcat (strConcat dest "/") fileName else fileName
      match moveSingleFile g f.path f.sha newPath with
      | (Except.error e, tr) => (MoveOutcome.serverError e, tr)
      | (Except.ok st, tr) =>
        let pr := processItems g dest rest
          ((if st = MStatus.moved then m + 1 else m),
           (if st = MStatus.moved then s else s + 1),
           ds ++ [⟨f.path, newPath, mStatusStr st⟩])
        (pr.1, tr ++ pr.2)

/-- The move-files handler: schema parse (a failure throws and surfaces as a
500 through the catch), authentication (401 when there is no user or no
stored token, where an empty stored token is falsy), then the per-item loop.
No comparison of owner with the caller's username is performed. -/
def moveFilesHandler (w : MoveWorld) (r : MoveRequest) : MoveOutcome × List MvCall :=
  if validateMoveRequest r = true then
    if w.userOk = true then
      match w.profile with
      | none => (MoveOutcome.unauthorized "GitHub token not found", [])
      | some prof =>
        if prof.github_access_token = "" then
          (MoveOutcome.unauthorized "GitHub token not found", [])
        else processItems w.gh r.destination r.files (0, 0, [])
    else (MoveOutcome.unauthorized "Unauthorized", [])
  else (MoveOutcome.serverError "Invalid request body", [])

/-! ## Client-side destination validator (MoveItemsDialog.tsx) -/

/-- The Root resolution of the dialog: the literal Root denotes the
repository root, every other choice denotes itself. -/
def resolveDest (d : String) : String := if d = "Root" then "" else d

/-- The per-directory scan of isInvalidDestination: the first selected
directory item equal to the resolved destination yields the into-itself
reason, the first one that is a proper ancestor yields the into-descendant
reason. -/
def invalidDirScan (rd : String) : List MvFile → Option String
  | [] => none
  | f :: fs =>
    if f.type = ItemType.dir then
      if rd = f.path then some "cannot move folder into itself"
      else if jsStartsWith rd (strConcat f.path "/") = true then
        some "cannot move folder into its descendant"
      else invalidDirScan rd fs
    else invalidDirScan rd fs

/-- The client-side isInvalidDestination helper: the resolved destination
equal to the current path is invalid, then each selected directory is
checked for the into-itself and into-descendant cases. -/
def isInvalidDestination (files : List MvFile) (currentPath dest : String) : Option String :=
  if resolveDest dest = currentPath then some "same as current folder"
  else invalidDirScan (resolveDest dest) files

/-- The per-item conditions under which the server-side loop marks an item
as not to be moved: the same-folder skip for files, and the same-parent
skip or the cycle rejection for directories (lines of the per-item loop of
the move handler). -/
def serverItemFlag (dest : String) (f : MvFile) : Bool :=
  if f.type = ItemType.file then decide (dest = sourceDirOf f.path)
  else
    decide (dest = sourceDirOf f.path) || decide (dest = f.path) ||
    (!(decide (dest = "")) && jsStartsWith dest (strConcat f.path "/"))

/-- The server-side execution check marks the destination invalid for the
selection when some selected item is flagged by its per-item condition. -/
def serverMarksInvalid (files : List MvFile) (dest : String) : Bool :=
  files.any (serverItemFlag dest)

/-! ## Claim-side predicates -/

/-- The keep-condition of claim C1 taken literally: an entry of blob type
whose path is not a selected file path and does not start with any selected
directory path followed by a slash (without the trailing-slash
normalisation the handler applies). -/
def claimKeep (items : List DeleteItem) (e : TreeEntry) : Bool :=
  decide (e.type = "blob") && !(decide (e.path ∈ selFilePaths items)) &&
  !(items.any (fun d =>
      decide (d.type = ItemType.dir) && jsStartsWith e.path (strConcat d.path "/")))

/-! ## Concrete fixtures used by witnesses and counterexamples -/

/-- A delete request selecting a directory whose path carries a trailing
slash. -/
def dReqSlash : DeleteRequest :=
  ⟨"alice", "repo", none, [⟨"a/", ItemType.dir⟩]⟩

/-- A tree entry lying under the directory of dReqSlash. -/
def entrySlash : TreeEntry := ⟨"a/b", "100644", "blob", "s1"⟩

/-- A delete world with the profile of alice, every provider call
succeeding, and a one-entry tree. -/
def dWorldSlash : DeleteWorld :=
  { profile := some ⟨"alice", "tok"⟩
    refOk := true, currentCommitSha := "c0"
    commitOk := true, baseTreeSha := "t0"
    treeOk := true, tree := [entrySlash]
    createTreeOk := true, newTreeSha := "t1"
    createCommitOk := true, newCommitSha := "c1"
    updateRefOk := true }

/-- A delete request selecting the directory old and the file readme.md. -/
def dReqTwo : DeleteRequest :=
  ⟨"alice", "repo", none, [⟨"old", ItemType.dir⟩, ⟨"readme.md", ItemType.file⟩]⟩

/-- A five-blob tree, three blobs under old. -/
def treeFive : List TreeEntry :=
  [⟨"old/a", "100644", "blob", "s1"⟩,
   ⟨"old/b", "100644", "blob", "s2"⟩,
   ⟨"old/c", "100644", "blob", "s3"⟩,
   ⟨"readme.md", "100644", "blob", "s4"⟩,
   ⟨"keep.txt", "100644", "blob", "s5"⟩]

/-- A delete world over treeFive with every provider call succeeding. -/
def dWorldFive : DeleteWorld :=
  { profile := some ⟨"alice", "tok"⟩
    refOk := true, currentCommitSha := "c0"
    commitOk := true, baseTreeSha := "t0"
    treeOk := true, tree := treeFive
    createTreeOk := true, newTreeSha := "t1"
    createCommitOk := true, newCommitSha := "c1"
    updateRefOk := true }

/-- A delete world whose branch-reference fetch fails. -/
def dWorldRefFail : DeleteWorld :=
  { dWorldFive with refOk := false }

/-- A delete request whose single item path starts with a slash. -/
def dReqBadPath : DeleteRequest :=
  ⟨"alice", "repo", none, [⟨"/etc", ItemType.file⟩]⟩

/-- A content-API oracle where every PUT and DELETE succeeds and a fixed
set of source files exists. -/
def ghHappy : GhWorld :=
  { getFile := fun p =>
      if p = "x/a.txt" then some ⟨"c1", "s1"⟩
      else if p = "a/x.txt" then some ⟨"c2", "s2"⟩
      else if p = "../x" then some ⟨"c3", "s3"⟩
      else none
    putOk := fun _ => true
    deleteOk := fun _ => true
    subtree := fun p => Entry.dirE p []
    listFails := fun _ => false }

/-- A content-API oracle where every PUT fails. -/
def ghPutFail : GhWorld :=
  { ghHappy with putOk := fun _ => false }

/-- A move world authenticated as bob with a stored token. -/
def mWorldBob : MoveWorld :=
  { userOk := true, profile := some ⟨"bob", "tok"⟩, gh := ghHappy }

/-- A move request of owner alice moving one file of folder x into folder
d, followed by the directory d itself (whose path equals the
destination). -/
def mReqCycleSecond : MoveRequest :=
  ⟨"alice", "repo",
   [⟨"x/a.txt", "s1", ItemType.file⟩, ⟨"d", "", ItemType.dir⟩], "d", "main"⟩

/-- A move request whose single item path escapes the repository root with
two leading dots. -/
def mReqDotDot : MoveRequest :=
  ⟨"alice", "repo", [⟨"../x", "s3", ItemType.file⟩], "", "main"⟩

/-- A move request of owner alice moving one file into folder b. -/
def mReqCross : MoveRequest :=
  ⟨"alice", "repo", [⟨"a/x.txt", "s2", ItemType.file⟩], "b", "main"⟩

/-- A move request selecting the directory a/d with its own parent as
destination. -/
def mReqSameParent : MoveRequest :=
  ⟨"alice", "repo", [⟨"a/d", "", ItemType.dir⟩], "a", "main"⟩

/-- The selection of mReqCross, as the dialog sees it. -/
def filesCross : List MvFile := [⟨"a/x.txt", "s2", ItemType.file⟩]

/-- A one-directory selection below the folder a. -/
def filesDirInA : List MvFile := [⟨"a/d", "", ItemType.dir⟩]

/-- A two-level remote directory used to exercise the lister. -/
def entryTwoLevel : Entry :=
  Entry.dirE "d" [Entry.fileE "d/a" "s1", Entry.dirE "d/sub" [Entry.fileE "d/sub/b" "s2"]]

/-! ## Helper lemmas -/

theorem hasDD_append_right (xs t : List Char) (h : hasDD t = true) :
    hasDD (xs ++ t) = true := by
  induction xs with
  | nil => simpa using h
  | cons x xs ih =>
    cases hxt : xs ++ t with
    | nil =>
      rcases List.append_eq_nil.mp hxt with ⟨-, ht⟩
      rw [ht] at h
      simp [hasDD] at h
    | cons y rest =>
      show hasDD (x :: (xs ++ t)) = true
      rw [hxt]
      cases rest with
      | nil =>
        rw [hxt] at ih
        cases t with
        | nil => simp [hasDD] at h
        | cons a as =>
          cases as with
          | nil => simp [hasDD] at h
          | cons b bs =>
            have : (xs ++ a :: b :: bs).length = 1 := by rw [hxt]; rfl
            simp [List.length_append] at this
            omega
      | cons z rest2 =>
        have hy : hasDD (y :: z :: rest2) = true := by rw [← hxt]; exact ih
        simp [hasDD] at hy ⊢
        tauto

theorem hasDD_of_dotdot_segsAux (l : List Char) :
    ∀ acc, ['.', '.'] ∈ segsAux l acc → hasDD (acc.reverse ++ l) = true := by
  induction l with
  | nil =>
    intro acc h
    simp [segsAux] at h
    rw [← h]
    rfl
  | cons c cs ih =>
    intro acc h
    by_cases hc : c = '/'
    · rw [segsAux, if_pos hc] at h
      rcases List.mem_cons.mp h with h1 | h2
      · rw [← h1]
        simp [hasDD]
      · have := ih [] h2
        simp at this
        have : hasDD ((acc.reverse ++ [c]) ++ cs) = true :=
          hasDD_append_right (acc.reverse ++ [c]) cs this
        simpa using this
    · rw [segsAux, if_neg hc] at h
      have := ih (c :: acc) h
      simpa using this

/-- A character list with no two consecutive dots has no ".." segment. -/
theorem no_dotdot_segment_of_not_hasDD (l : List Char) (h : hasDD l = false) :
    ['.', '.'] ∉ segs l := by
  intro hmem
  have := hasDD_of_dotdot_segsAux l [] hmem
  simp at this
  rw [this] at h
  cases h

/-- Membership characterisation of the newTree computation of the delete
handler. -/
theorem mem_buildNewTree (items : List DeleteItem) (tree : List TreeEntry) (e : TreeEntry) :
    e ∈ buildNewTree items tree ↔
      e ∈ tree ∧ e.type = "blob" ∧ e.path ∉ selFilePaths items ∧
      ∀ d ∈ items, d.type = ItemType.dir → jsStartsWith e.path (normDirPath d.path) = false := by
  unfold buildNewTree
  constructor
  · intro h
    rcases List.mem_filter.mp h with ⟨h1, hblob⟩
    rcases List.mem_filter.mp h1 with ⟨hmem, hcond⟩
    have hany := ((Bool.and_eq_true _ _).mp hcond).1
    have hfile := ((Bool.and_eq_true _ _).mp hcond).2
    refine ⟨hmem, by simpa using hblob, by simpa using hfile, ?_⟩
    intro d hd hdty
    have hall := List.any_eq_false.mp (by simpa using hany)
    have := hall (normDirPath d.path)
      (List.mem_map.mpr ⟨d, List.mem_filter.mpr ⟨hd, by simp [hdty]⟩, rfl⟩)
    simpa using this
  · rintro ⟨hmem, hblob, hfile, hdirs⟩
    refine List.mem_filter.mpr ⟨List.mem_filter.mpr ⟨hmem, ?_⟩, by simpa using hblob⟩
    have hanyf : (dirExclusions items).any (fun dp => jsStartsWith e.path dp) = false := by
      refine List.any_eq_false.mpr ?_
      intro dp hdp
      rcases List.mem_map.mp hdp with ⟨d, hdf, rfl⟩
      rcases List.mem_filter.mp hdf with ⟨hdmem, hdty⟩
      simpa using hdirs d hdmem (by simpa using hdty)
    exact (Bool.and_eq_true _ _).mpr ⟨by simp [hanyf], by simpa using hfile⟩

/-! ## Claim C1 -/

/-- C1, as stated, is false: when a selected directory path itself ends in a
slash, the handler excludes entries starting with that path as is, while the
claim ("selected directory path followed by a slash") would require the
exclusion to use the path with a second slash appended.  Concretely, for the
selection of the directory a/ and the tree with the single blob a/b, the
claim-side test keeps the blob (a/b does not start with a//) yet the tree
submitted by the handler is empty. -/
theorem C1_counterexample :
    claimKeep dReqSlash.items entrySlash = true ∧
    entrySlash ∈ dWorldSlash.tree ∧
    buildNewTree dReqSlash.items dWorldSlash.tree = [] ∧
    GitCall.createTree [] ∈ (deleteItemsHandler dWorldSlash dReqSlash).2 := by
  refine ⟨by decide, by decide, by decide, by decide⟩

/-- C1 (amended to the trailing-slash normalisation of the handler): every
tree list submitted through a createTree call of the delete handler contains
exactly those entries of the fetched tree snapshot that are of blob type,
whose path is not a selected file path, and whose path does not start with
the normalised selected directory path (the path itself when it already ends
in a slash, otherwise the path followed by a slash); each such blob is kept
unchanged. -/
theorem C1_newTree_exact : ∀ (w : DeleteWorld) (r : DeleteRequest) (t : List TreeEntry),
    GitCall.createTree t ∈ (deleteItemsHandler w r).2 →
    ∀ e : TreeEntry,
      e ∈ t ↔ (e ∈ w.tree ∧ e.type = "blob" ∧
        e.path ∉ selFilePaths r.items ∧
        ∀ d ∈ r.items, d.type = ItemType.dir →
          jsStartsWith e.path (normDirPath d.path) = false) := by
  intro w r t hmem e
  have ht : t = buildNewTree r.items w.tree := by
    unfold deleteItemsHandler at hmem
    iterate 12 all_goals try split at hmem
    all_goals simp_all
  rw [ht]
  exact mem_buildNewTree r.items w.tree e

/-- Witness for C1: the submitted tree of a concrete run, characterised at
the kept blob keep.txt. -/
theorem C1_witness :
    (⟨"keep.txt", "100644", "blob", "s5"⟩ : TreeEntry) ∈
        buildNewTree dReqTwo.items dWorldFive.tree ↔
      ((⟨"keep.txt", "100644", "blob", "s5"⟩ : TreeEntry) ∈ dWorldFive.tree ∧
       (⟨"keep.txt", "100644", "blob", "s5"⟩ : TreeEntry).type = "blob" ∧
       (⟨"keep.txt", "100644", "blob", "s5"⟩ : TreeEntry).path ∉ selFilePaths dReqTwo.items ∧
       ∀ d ∈ dReqTwo.items, d.type = ItemType.dir →
         jsStartsWith (⟨"keep.txt", "100644", "blob", "s5"⟩ : TreeEntry).path
           (normDirPath d.path) = false) :=
  C1_newTree_exact dWorldFive dReqTwo (buildNewTree dReqTwo.items dWorldFive.tree)
    (by decide) _

/-! ## Claim C2 -/

/-- C2: in every run of the delete handler, the branch-reference PATCH is
the only branch-mutating call in the trace, it is issued exactly when
validation, authentication, the owner check and the five preceding provider
calls all succeed, it is then the last call of the trace, and on every
earlier failure the handler returns an error with no branch-mutating call
issued. -/
theorem C2_refUpdate_last : ∀ (w : DeleteWorld) (r : DeleteRequest),
    ((deleteItemsHandler w r).2.filter mutatesBranchRef =
        if deletePipelineOk w r = true then [GitCall.updateRef w.newCommitSha] else []) ∧
    (deletePipelineOk w r = false →
        DeleteResult.isErr (deleteItemsHandler w r).1 = true ∧
        (deleteItemsHandler w r).2.filter mutatesBranchRef = []) ∧
    (deletePipelineOk w r = true →
        (deleteItemsHandler w r).2 =
          [GitCall.getRef, GitCall.getCommit, GitCall.getTree,
           GitCall.createTree (buildNewTree r.items w.tree),
           GitCall.createCommit w.newTreeSha w.currentCommitSha,
           GitCall.updateRef w.newCommitSha]) := by
  intro w r
  unfold deleteItemsHandler deletePipelineOk
  cases hp : w.profile with
  | none =>
    cases hv : validateDeleteRequest r <;>
      simp [hv, DeleteResult.isErr, mutatesBranchRef]
  | some prof =>
    cases hv : validateDeleteRequest r
    · simp [hv, DeleteResult.isErr, mutatesBranchRef]
    · by_cases ho : r.owner = prof.github_username <;>
        cases h1 : w.refOk <;> cases h2 : w.commitOk <;> cases h3 : w.treeOk <;>
        cases h4 : w.createTreeOk <;> cases h5 : w.createCommitOk <;>
        cases h6 : w.updateRefOk <;>
        simp [hv, ho, h1, h2, h3, h4, h5, h6, DeleteResult.isErr, mutatesBranchRef]

/-- Witness for C2: a run whose branch-reference fetch fails returns an
error with no branch-mutating call, and a fully successful run issues
exactly the six calls with the PATCH last. -/
theorem C2_witness :
    (DeleteResult.isErr (deleteItemsHandler dWorldRefFail dReqTwo).1 = true ∧
      (deleteItemsHandler dWorldRefFail dReqTwo).2.filter mutatesBranchRef = []) ∧
    (deleteItemsHandler dWorldFive dReqTwo).2 =
      [GitCall.getRef, GitCall.getCommit, GitCall.getTree,
       GitCall.createTree (buildNewTree dReqTwo.items dWorldFive.tree),
       GitCall.createCommit "t1" "c0", GitCall.updateRef "c1"] :=
  ⟨(C2_refUpdate_last dWorldRefFail dReqTwo).2.1 (by decide),
   (C2_refUpdate_last dWorldFive dReqTwo).2.2 (by decide)⟩

/-! ## Claim C10 -/

/-- C10: every success response of the delete handler reports as its deleted
count the length of the selected item list, whatever the tree contained. -/
theorem C10_deleted_count : ∀ (w : DeleteWorld) (r : DeleteRequest) (n : Nat),
    (deleteItemsHandler w r).1 = DeleteResult.success n → n = r.items.length := by
  intro w r n h
  unfold deleteItemsHandler at h
  iterate 12 all_goals try split at h
  all_goals simp_all

/-- Witness for C10: deleting a directory holding three blobs plus one file
from a five-blob tree reports two deleted items (the selection length), even
though four blobs left the tree. -/
theorem C10_witness :
    (deleteItemsHandler dWorldFive dReqTwo).1 = DeleteResult.success 2 ∧
    (2 : Nat) = dReqTwo.items.length ∧
    (buildNewTree dReqTwo.items dWorldFive.tree).length = 1 :=
  ⟨by decide, C10_deleted_count dWorldFive dReqTwo 2 (by decide), by decide⟩

/-! ## Claim C6 -/

/-- From a schema-accepted delete request, every item path passes the path
refinement. -/
theorem validate_items_pathOk (r : DeleteRequest)
    (hv : validateDeleteRequest r = true) :
    ∀ i ∈ r.items, pathOk i.path = true := by
  rw [validateDeleteRequest] at hv
  simp only [Bool.and_eq_true] at hv
  exact fun i hi => List.all_eq_true.mp hv.1.2 i hi

/-- The properties claimed of an accepted path, derived from the path
refinement: non-empty, no ".." segment, no leading slash. -/
theorem pathOk_props (p : String) (h : pathOk p = true) :
    p ≠ "" ∧ ['.', '.'] ∉ segs p.data ∧ jsStartsWith p "/" = false := by
  simp only [pathOk, Bool.and_eq_true, Bool.not_eq_true', decide_eq_true_eq] at h
  refine ⟨?_, ?_, h.2⟩
  · intro he
    rw [he] at h
    exact absurd h.1.1.1 (by decide)
  · exact no_dotdot_segment_of_not_hasDD p.data h.1.2

/-- C6, as stated, is false for the move endpoint: moveFilesSchema does not
constrain item paths, so a move request whose single path has a ".."
segment passes validation and the handler issues provider calls for it
instead of rejecting with a 400. -/
theorem C6_counterexample :
    validateMoveRequest mReqDotDot = true ∧
    ['.', '.'] ∈ segs ("../x").data ∧
    (moveFilesHandler mWorldBob mReqDotDot).1 =
      MoveOutcome.success 1 0 [⟨"../x", "x", "moved"⟩] ∧
    MvCall.putFile "x" "c3" none ∈ (moveFilesHandler mWorldBob mReqDotDot).2 :=
  ⟨by decide, by decide, by decide, by decide⟩

/-- C6 (amended to the delete endpoint only): every item path accepted by
the delete schema is non-empty, has no ".." segment (the schema rejects
".." even as a substring) and no leading slash, and a delete request
containing a violating path is rejected as a 400 validation error with no
provider call issued.  The move schema performs no such check. -/
theorem C6_delete_path_rules : ∀ (r : DeleteRequest) (w : DeleteWorld),
    (validateDeleteRequest r = true →
      ∀ i ∈ r.items, i.path ≠ "" ∧ ['.', '.'] ∉ segs i.path.data ∧
        jsStartsWith i.path "/" = false) ∧
    ((∃ i ∈ r.items, i.path = "" ∨ ['.', '.'] ∈ segs i.path.data ∨
        jsStartsWith i.path "/" = true) →
      deleteItemsHandler w r = (DeleteResult.invalidInput, [])) := by
  intro r w
  constructor
  · intro hv i hi
    exact pathOk_props i.path (validate_items_pathOk r hv i hi)
  · rintro ⟨i, hi, hviol⟩
    have hvf : validateDeleteRequest r = false := by
      by_contra hne
      have hv : validateDeleteRequest r = true := by
        cases hval : validateDeleteRequest r
        · exact absurd hval hne
        · rfl
      rcases pathOk_props i.path (validate_items_pathOk r hv i hi) with ⟨h1, h2, h3⟩
      rcases hviol with h | h | h
      · exact h1 h
      · exact h2 h
      · rw [h3] at h
        cases h
    simp [deleteItemsHandler, hvf]

/-- Witness for C6: the accepted path old satisfies the three rules, and the
delete request selecting the path /etc is rejected with no provider call. -/
theorem C6_witness :
    (("old" : String) ≠ "" ∧ ['.', '.'] ∉ segs ("old" : String).data ∧
      jsStartsWith "old" "/" = false) ∧
    deleteItemsHandler dWorldFive dReqBadPath = (DeleteResult.invalidInput, []) :=
  ⟨(C6_delete_path_rules dReqTwo dWorldFive).1 (by decide) ⟨"old", ItemType.dir⟩
      (by decide),
   (C6_delete_path_rules dReqBadPath dWorldFive).2
      ⟨⟨"/etc", ItemType.file⟩, by decide, by decide⟩⟩

/-! ## Claim C7 -/

/-- C7, as stated, is false for the move endpoint: the move handler never
compares the request owner with the caller's provider username, so a move
request whose owner differs from the authenticated username is executed,
issuing provider calls, rather than rejected with a 403. -/
theorem C7_counterexample :
    ("alice" : String) ≠ "bob" ∧
    mWorldBob.profile = some ⟨"bob", "tok"⟩ ∧
    mReqCross.owner = "alice" ∧
    (moveFilesHandler mWorldBob mReqCross).1 =
      MoveOutcome.success 1 0 [⟨"a/x.txt", "b/x.txt", "moved"⟩] ∧
    MvCall.putFile "b/x.txt" "c2" none ∈ (moveFilesHandler mWorldBob mReqCross).2 :=
  ⟨by decide, by decide, by decide, by decide, by decide⟩

/-- C7 (amended to the delete endpoint only): the delete handler rejects a
valid authenticated request whose owner differs from the caller's provider
username with a 403 and no provider call; the move handler's result is
independent of the caller's username, performing no such check. -/
theorem C7_owner_check :
    (∀ (w : DeleteWorld) (r : DeleteRequest) (prof : Profile),
      validateDeleteRequest r = true → w.profile = some prof →
      r.owner ≠ prof.github_username →
      deleteItemsHandler w r = (DeleteResult.forbidden, [])) ∧
    (∀ (mw : MoveWorld) (mr : MoveRequest) (u1 u2 tok : String),
      moveFilesHandler { mw with profile := some ⟨u1, tok⟩ } mr =
      moveFilesHandler { mw with profile := some ⟨u2, tok⟩ } mr) := by
  constructor
  · intro w r prof hv hp ho
    simp [deleteItemsHandler, hv, hp, ho]
  · intro mw mr u1 u2 tok
    rfl

/-- Witness for C7: a cross-owner delete request is rejected with 403 and an
empty trace, and a concrete move run is unchanged when the stored username
changes. -/
theorem C7_witness :
    deleteItemsHandler { dWorldFive with profile := some ⟨"bob", "tok"⟩ } dReqTwo =
      (DeleteResult.forbidden, []) ∧
    moveFilesHandler { mWorldBob with profile := some ⟨"alice", "tok"⟩ } mReqCross =
      moveFilesHandler { mWorldBob with profile := some ⟨"carol", "tok"⟩ } mReqCross :=
  ⟨C7_owner_check.1 _ dReqTwo ⟨"bob", "tok"⟩ (by decide) rfl (by decide),
   C7_owner_check.2 mWorldBob mReqCross "alice" "carol" "tok"⟩

/-! ## Claim C3 -/

/-- C3: a DELETE of the source appears in a moveSingleFile trace only for a
distinct destination whose PUT succeeded, after a successful source fetch,
and then the trace is exactly source GET, destination probe, destination
PUT, source DELETE, in that order. -/
theorem C3_delete_after_put : ∀ (g : GhWorld) (s sha d p psha : String),
    MvCall.deleteFile p psha ∈ (moveSingleFile g s sha d).2 →
    g.putOk d = true ∧ p = s ∧ psha = sha ∧ s ≠ d ∧
    (∃ fd, g.getFile s = some fd) ∧
    ∃ content prior,
      (moveSingleFile g s sha d).2 =
        [MvCall.getContents s, MvCall.getContents d,
         MvCall.putFile d content prior, MvCall.deleteFile s sha] := by
  intro g s sha d p psha h
  by_cases hsd : s = d
  · simp [moveSingleFile, hsd] at h
  · cases hg : g.getFile s with
    | none => simp [moveSingleFile, hsd, hg] at h
    | some fd =>
      by_cases hput : g.putOk d = true
      · have hps : p = s ∧ psha = sha := by
          simp [moveSingleFile, hsd, hg, hput] at h
          tauto
        refine ⟨hput, hps.1, hps.2, hsd, ⟨fd, rfl⟩, fd.content,
          (match g.getFile d with
           | some destData => some destData.sha
           | none => none), ?_⟩
        simp [moveSingleFile, hsd, hg, hput]
      · simp [moveSingleFile, hsd, hg, hput] at h

/-- Witness for C3: a concrete move whose trace contains the source DELETE,
with all conclusions evaluated. -/
theorem C3_witness :
    ghHappy.putOk "b/x.txt" = true ∧ ("a/x.txt" : String) = "a/x.txt" ∧
    ("s2" : String) = "s2" ∧ ("a/x.txt" : String) ≠ "b/x.txt" ∧
    (∃ fd, ghHappy.getFile "a/x.txt" = some fd) ∧
    ∃ content prior,
      (moveSingleFile ghHappy "a/x.txt" "s2" "b/x.txt").2 =
        [MvCall.getContents "a/x.txt", MvCall.getContents "b/x.txt",
         MvCall.putFile "b/x.txt" content prior, MvCall.deleteFile "a/x.txt" "s2"] :=
  C3_delete_after_put ghHappy "a/x.txt" "s2" "b/x.txt" "a/x.txt" "s2" (by decide)

/-! ## Claim C4 -/

/-- C4, as stated, is false: in a batch whose first item is a file of
another folder and whose second item is a directory equal to the
destination, the handler first moves the file (a PUT and a DELETE are
issued) and only then rejects the batch with the 400 cycle error, so
remote mutation does occur for items listed before the offending
directory. -/
theorem C4_counterexample :
    (moveFilesHandler mWorldBob mReqCycleSecond).1 =
      MoveOutcome.badRequest (cycleMsg "d" "d") ∧
    MvCall.putFile "d/a.txt" "c1" none ∈ (moveFilesHandler mWorldBob mReqCycleSecond).2 ∧
    MvCall.deleteFile "x/a.txt" "s1" ∈ (moveFilesHandler mWorldBob mReqCycleSecond).2 :=
  ⟨by decide, by decide, by decide⟩

/-- C4 (amended): when the per-item loop reaches a directory item whose path
equals the destination or is a proper ancestor of it (and the same-parent
skip does not apply), the whole request is rejected with the 400 cycle
error and no further provider call is issued, for the offending directory or
for any later item; items processed earlier in the selection may already
have been moved. -/
theorem C4_cycle_reject : ∀ (g : GhWorld) (dest : String) (f : MvFile)
    (rest : List MvFile) (m s : Nat) (ds : List Detail),
    f.type = ItemType.dir → dest ≠ sourceDirOf f.path →
    (dest = f.path ∨ (dest ≠ "" ∧ jsStartsWith dest (strConcat f.path "/") = true)) →
    processItems g dest (f :: rest) (m, s, ds) =
      (MoveOutcome.badRequest (cycleMsg f.path dest), []) := by
  intro g dest f rest m s ds hdir hns hcyc
  simp [processItems, hdir, hns, hcyc]

/-- Witness for C4: a batch whose first item already offends is rejected
with zero provider calls. -/
theorem C4_witness :
    processItems ghHappy "d" [⟨"d", "", ItemType.dir⟩] (0, 0, []) =
      (MoveOutcome.badRequest (cycleMsg "d" "d"), []) :=
  C4_cycle_reject ghHappy "d" ⟨"d", "", ItemType.dir⟩ [] 0 0 []
    (by decide) (by decide) (by decide)

/-! ## Claim C8 -/

/-- C8, as stated, is false for directory items: a directory whose parent
equals the destination is recorded with the status skipped (same parent),
not skipped (same folder). -/
theorem C8_counterexample :
    (moveFilesHandler mWorldBob mReqSameParent).1 =
      MoveOutcome.success 0 1 [⟨"a/d", "a", "skipped (same parent)"⟩] ∧
    (moveFilesHandler mWorldBob mReqSameParent).2 = [] ∧
    ("skipped (same parent)" : String) ≠ "skipped (same folder)" :=
  ⟨by decide, by decide, by decide⟩

/-- C8 (amended): an item whose containing folder equals the destination is
skipped with no provider call and the loop continues — recorded as skipped
(same folder) for a file item and skipped (same parent) for a directory
item — and the single-file mover returns skipped with no call when source
equals destination. -/
theorem C8_same_folder_skip : ∀ (g : GhWorld) (dest : String) (f : MvFile)
    (rest : List MvFile) (m s : Nat) (ds : List Detail),
    (f.type = ItemType.file → dest = sourceDirOf f.path →
      processItems g dest (f :: rest) (m, s, ds) =
        processItems g dest rest
          (m, s + 1, ds ++ [⟨f.path, destOrRoot dest, "skipped (same folder)"⟩])) ∧
    (f.type = ItemType.dir → dest = sourceDirOf f.path →
      processItems g dest (f :: rest) (m, s, ds) =
        processItems g dest rest
          (m, s + 1, ds ++ [⟨f.path, destOrRoot dest, "skipped (same parent)"⟩])) ∧
    (∀ p sha, moveSingleFile g p sha p = (Except.ok MStatus.skipped, [])) := by
  intro g dest f rest m s ds
  refine ⟨?_, ?_, ?_⟩
  · intro hf hd
    simp [processItems, hf, hd]
  · intro hf hd
    simp [processItems, hf, hd]
  · intro p sha
    simp [moveSingleFile]

/-- Witness for C8: a file already in the destination folder is skipped with
the same-folder status and no call, and a same-path single move is skipped
with no call. -/
theorem C8_witness :
    processItems ghHappy "a" [⟨"a/f.txt", "s9", ItemType.file⟩] (0, 0, []) =
      processItems ghHappy "a" []
        (0, 0 + 1, [] ++ [⟨"a/f.txt", destOrRoot "a", "skipped (same folder)"⟩]) ∧
    moveSingleFile ghHappy "p.txt" "s0" "p.txt" = (Except.ok MStatus.skipped, []) :=
  ⟨(C8_same_folder_skip ghHappy "a" ⟨"a/f.txt", "s9", ItemType.file⟩ [] 0 0 []).1
      (by decide) (by decide),
   (C8_same_folder_skip ghHappy "a" ⟨"a/f.txt", "s9", ItemType.file⟩ [] 0 0 []).2.2
      "p.txt" "s0"⟩

/-! ## Claim C9 -/

mutual

theorem listEntry_noFail : ∀ t : Entry, (listEntry (fun _ => false) t).1 = specBlobs t
  | Entry.fileE p sha => by simp [listEntry, specBlobs]
  | Entry.dirE p cs => by simp [listEntry, specBlobs, listEntries_noFail cs]

theorem listEntries_noFail :
    ∀ ts : List Entry, (listEntries (fun _ => false) ts).1 = specBlobsList ts
  | [] => by simp [listEntries, specBlobsList]
  | e :: es => by
      simp [listEntries, specBlobsList, listEntry_noFail e, listEntries_noFail es]

end

/-- C9: listing a directory whose contents fetch fails returns the empty
sequence rather than an error, and with no failures the lister returns
exactly every blob reachable under the entry (file children and recursively
listed directory children, subdirectory entries excluded), as collected by
the spec-side specBlobs. -/
theorem C9_lister :
    (∀ (fails : String → Bool) (p : String) (cs : List Entry),
      fails p = true → (listEntry fails (Entry.dirE p cs)).1 = []) ∧
    (∀ t : Entry, (listEntry (fun _ => false) t).1 = specBlobs t) := by
  constructor
  · intro fails p cs h
    simp [listEntry, h]
  · exact listEntry_noFail

/-- Witness for C9: a failing fetch yields the empty sequence, and a
two-level directory yields exactly its two blobs. -/
theorem C9_witness :
    (listEntry (fun _ => true) (Entry.dirE "d" [])).1 = [] ∧
    (listEntry (fun _ => false) entryTwoLevel).1 =
      [⟨"d/a", "s1"⟩, ⟨"d/sub/b", "s2"⟩] := by
  refine ⟨C9_lister.1 (fun _ => true) "d" [] rfl, ?_⟩
  rw [C9_lister.2 entryTwoLevel]
  simp [entryTwoLevel, specBlobs, specBlobsList]

/-! ## Claim C5 -/

/-- Nothing starts with a path followed by a slash when the candidate is the
empty string. -/
theorem jsStartsWith_empty_slash (p : String) :
    jsStartsWith "" (strConcat p "/") = false := by
  cases p with
  | mk d =>
    cases d with
    | nil => rfl
    | cons c cs => rfl

/-- The directory scan of the client validator finds a reason exactly when
some selected directory equals the destination or is a proper ancestor of
it. -/
theorem invalidDirScan_isSome (rd : String) (files : List MvFile) :
    (invalidDirScan rd files).isSome = true ↔
      ∃ f ∈ files, f.type = ItemType.dir ∧
        (rd = f.path ∨ jsStartsWith rd (strConcat f.path "/") = true) := by
  induction files with
  | nil => simp [invalidDirScan]
  | cons f fs ih =>
    by_cases hd : f.type = ItemType.dir
    · by_cases h1 : rd = f.path
      · simp [invalidDirScan, hd, h1]
      · by_cases h2 : jsStartsWith rd (strConcat f.path "/") = true
        · simp [invalidDirScan, hd, h1, h2]
        · rw [invalidDirScan, if_pos hd, if_neg h1, if_neg h2, ih]
          constructor
          · rintro ⟨f1, hf1, hp⟩
            exact ⟨f1, List.mem_cons_of_mem f hf1, hp⟩
          · rintro ⟨f1, hf1, hp⟩
            rcases List.mem_cons.mp hf1 with rfl | hf1
            · rcases hp.2 with h | h
              · exact absurd h h1
              · exact absurd h h2
            · exact ⟨f1, hf1, hp⟩
    · rw [invalidDirScan, if_neg hd, ih]
      constructor
      · rintro ⟨f1, hf1, hp⟩
        exact ⟨f1, List.mem_cons_of_mem f hf1, hp⟩
      · rintro ⟨f1, hf1, hp⟩
        rcases List.mem_cons.mp hf1 with rfl | hf1
        · exact absurd hp.1 hd
        · exact ⟨f1, hf1, hp⟩

/-- C5, as stated, is false: for the selection of one file of folder a with
current folder b and destination b, the client validator marks the
destination invalid (same as current folder) while the server-side per-item
checks flag nothing — the handler executes the move and issues a PUT. -/
theorem C5_counterexample :
    (isInvalidDestination filesCross "b" "b").isSome = true ∧
    serverMarksInvalid filesCross (resolveDest "b") = false ∧
    mReqCross.files = filesCross ∧
    mReqCross.destination = resolveDest "b" ∧
    MvCall.putFile "b/x.txt" "c2" none ∈ (moveFilesHandler mWorldBob mReqCross).2 :=
  ⟨by decide, by decide, by decide, by decide, by decide⟩

/-- C5 (amended): when the selection is non-empty and every selected item's
containing folder equals the current-folder input — the situation the
dialog produces, since the selection is taken from the folder being
browsed — the client validator marks a destination invalid exactly when the
server-side per-item checks flag some selected item (as a same-folder skip
or a cycle rejection) for the resolved destination. -/
theorem C5_validator_match : ∀ (files : List MvFile) (cur dest : String),
    files ≠ [] → (∀ f ∈ files, sourceDirOf f.path = cur) →
    ((isInvalidDestination files cur dest).isSome = true ↔
      serverMarksInvalid files (resolveDest dest) = true) := by
  intro files cur dest hne hsrc
  unfold isInvalidDestination serverMarksInvalid
  by_cases hc : resolveDest dest = cur
  · rw [if_pos hc]
    simp only [Option.isSome_some]
    constructor
    · intro _
      cases files with
      | nil => exact absurd rfl hne
      | cons f fs =>
        refine List.any_eq_true.mpr ⟨f, List.mem_cons_self f fs, ?_⟩
        have hs : sourceDirOf f.path = cur := hsrc f (List.mem_cons_self f fs)
        cases hft : f.type with
        | file => simp [serverItemFlag, hft, hs, hc]
        | dir => simp [serverItemFlag, hft, hs, hc]
    · intro _
      exact trivial
  · rw [if_neg hc]
    rw [invalidDirScan_isSome, List.any_eq_true]
    constructor
    · rintro ⟨f, hf, hdir, hor⟩
      refine ⟨f, hf, ?_⟩
      rcases hor with h | h
      · simp [serverItemFlag, hdir, h]
      · have hrdne : ¬(resolveDest dest = "") := by
          intro h0
          rw [h0, jsStartsWith_empty_slash] at h
          cases h
        simp [serverItemFlag, hdir, h, hrdne]
    · rintro ⟨f, hf, hflag⟩
      have hs : sourceDirOf f.path = cur := hsrc f hf
      refine ⟨f, hf, ?_⟩
      cases hft : f.type with
      | file =>
        simp [serverItemFlag, hft, hs] at hflag
        exact absurd hflag hc
      | dir =>
        simp [serverItemFlag, hft, hs] at hflag
        have hout : resolveDest dest = f.path ∨
            jsStartsWith (resolveDest dest) (strConcat f.path "/") = true := by
          tauto
        exact ⟨rfl, hout⟩

/-- Witness for C5: for the selection of the directory a/d below the current
folder a, the client validator and the server-side flags agree on the
destination a/d. -/
theorem C5_witness :
    (isInvalidDestination filesDirInA "a" "a/d").isSome = true ↔
      serverMarksInvalid filesDirInA (resolveDest "a/d") = true :=
  C5_validator_match filesDirInA "a" "a/d" (by decide) (by decide)

end RepoOps
